import Mathlib

/-!
Verification of the compressed-NFT demo scripts (`src/utils.ts`, `src/index.ts`).

The TypeScript sources are shallowly embedded: network calls (`getTransaction`,
`heliusApi`, `getBalance`, ...) are modelled as oracle inputs, thrown JS
exceptions as `Except String`, and `undefined` as `Option`.  Public keys are
modelled as an abstract type with decidable equality (`PubKey := Nat`); the
source compares keys through their base-58 strings, and base-58 encoding is
injective, so key equality is compared directly.  External SDK routines that
the scripts only call (`getLeafAssetId`, `findProgramAddressSync`, the
change-log deserializer) are parameters of the embedding.
-/

/-- Abstract model of `PublicKey`. -/
abbrev PubKey := Nat

/-- Abstract model of a byte buffer (`Buffer`, `Uint8Array`). -/
abbrev Bytes := List Nat

/-- `PublicKey.toBuffer()` / `.toBytes()`: an injective encoding of a key as bytes. -/
def pubKeyToBuffer (k : PubKey) : Bytes := [k]

/-- `PROGRAM_ID` of `@metaplex-foundation/mpl-bubblegum` (a fixed address; only
its distinctness from the other program ids matters to the scripts). -/
def BUBBLEGUM_PROGRAM_ID : PubKey := 0

/-- `SPL_NOOP_PROGRAM_ID` (the log-wrapper program). -/
def SPL_NOOP_PROGRAM_ID : PubKey := 1

/-- `SPL_ACCOUNT_COMPRESSION_PROGRAM_ID`. -/
def SPL_ACCOUNT_COMPRESSION_PROGRAM_ID : PubKey := 2

/-- A compiled top-level instruction of a fetched transaction message. -/
structure CompiledInstruction where
  programIdIndex : Nat
  deriving Repr, DecidableEq

/-- An inner (CPI) instruction of a fetched transaction: program index and
base58-encoded `data` string. -/
structure InnerInstruction where
  programIdIndex : Nat
  data : String
  deriving Repr, DecidableEq

/-- One entry of `meta.innerInstructions`: the inner instructions recorded for
one top-level instruction. -/
structure InnerInstructionEntry where
  instructions : List InnerInstruction
  deriving Repr, DecidableEq

/-- `transaction.message` of a fetched transaction. -/
structure TxMessage where
  staticAccountKeys : List PubKey
  compiledInstructions : List CompiledInstruction
  deriving Repr, DecidableEq

/-- `meta` of a fetched transaction (`innerInstructions` may be absent). -/
structure TxMeta where
  innerInstructions : Option (List InnerInstructionEntry)
  deriving Repr, DecidableEq

/-- A fetched transaction, as returned by `connection.getTransaction`. -/
structure TxInfo where
  message : TxMessage
  meta : Option TxMeta
  deriving Repr, DecidableEq

/-- `isProgramId` (utils.ts:174-177): does the instruction's `programIdIndex`
point at `programId` in the message's static account keys?  The source
compares the base-58 strings of the two keys; base-58 is injective, so this is
key equality.  An out-of-range index is modelled as a non-match (the source
assumes well-formed fetched transactions). -/
def isProgramId (tx : TxInfo) (programIdIndex : Nat) (programId : PubKey) : Bool :=
  tx.message.staticAccountKeys[programIdIndex]? == some programId

/-- The descending `for` loop of `extractAssetId` (utils.ts:200-217): starting
at index `n - 1` and walking down to `0`, each iteration base58-decodes the
inner instruction's data and deserializes it as a change-log event; `deser`
models that attempt, returning `none` both when it throws (the `catch`
swallows the error) and when the event's `index` is `undefined`, in either
case the loop continues; a defined index breaks the loop. -/
def assetIndexLoop (deser : String → Option Nat) (ixs : List InnerInstruction) :
    Nat → Option Nat
  | 0 => none
  | n + 1 =>
    match ixs[n]? with
    | none => assetIndexLoop deser ixs n
    | some ix =>
      match deser ix.data with
      | some idx => some idx
      | none => assetIndexLoop deser ixs n

/-- `extractAssetId` (utils.ts:163-224), embedded over a fetched transaction.
`deser` models `deserializeChangeLogEventV1 ∘ base58.decode` (external SDK),
`getLeafAssetId` models the SDK's asset-id derivation from tree address and
leaf index.  Returns `.ok none` for the early `return` (no Bubblegum
instruction), `.error` where the source throws (`.filter` on an `undefined`
inner-instruction list), and `.ok (some assetId)` otherwise.  When the loop
recovers no index, `new BN(assetIndex)` does not throw: bn.js's constructor
coerces `undefined` to `0` (`this._init(number || 0, ...)`), so the source
returns the asset id derived for leaf index 0. -/
def extractAssetId (deser : String → Option Nat)
    (getLeafAssetId : PubKey → Nat → PubKey)
    (tx : TxInfo) (treeAddress : PubKey) : Except String (Option PubKey) :=
  match tx.message.compiledInstructions.findIdx?
      (fun ins => isProgramId tx ins.programIdIndex BUBBLEGUM_PROGRAM_ID) with
  | none => .ok none
  | some relevantIndex =>
    match (tx.meta.bind (fun m => m.innerInstructions)).bind
        (fun entries => entries[relevantIndex]?) with
    | none => .error "TypeError: cannot read inner instructions"
    | some entry =>
      let relevantInnerIxs := entry.instructions.filter
        (fun ins => isProgramId tx ins.programIdIndex SPL_NOOP_PROGRAM_ID)
      match assetIndexLoop deser relevantInnerIxs relevantInnerIxs.length with
      | some assetIndex => .ok (some (getLeafAssetId treeAddress assetIndex))
      | none => .ok (some (getLeafAssetId treeAddress 0))

/-- The leaf index `extractAssetId` recovers from a fetched transaction (the
value of `assetIndex` after the loop), `none` when the function returns early
or recovers nothing. -/
def recoveredIndex (deser : String → Option Nat) (tx : TxInfo) : Option Nat :=
  match tx.message.compiledInstructions.findIdx?
      (fun ins => isProgramId tx ins.programIdIndex BUBBLEGUM_PROGRAM_ID) with
  | none => none
  | some relevantIndex =>
    match (tx.meta.bind (fun m => m.innerInstructions)).bind
        (fun entries => entries[relevantIndex]?) with
    | none => none
    | some entry =>
      let relevantInnerIxs := entry.instructions.filter
        (fun ins => isProgramId tx ins.programIdIndex SPL_NOOP_PROGRAM_ID)
      assetIndexLoop deser relevantInnerIxs relevantInnerIxs.length

/-- The descending loop of `extractAssetId` computes the first defined index
among the first `n` instructions scanned in reverse order. -/
theorem assetIndexLoop_eq_findSome (deser : String → Option Nat)
    (ixs : List InnerInstruction) :
    ∀ n, n ≤ ixs.length →
      assetIndexLoop deser ixs n =
        ((ixs.take n).reverse).findSome? (fun ix => deser ix.data) := by
  intro n
  induction n with
  | zero => intro _; simp [assetIndexLoop]
  | succ n ih =>
    intro hn
    have hlt : n < ixs.length := Nat.lt_of_succ_le hn
    have hget : ixs[n]? = some ixs[n] := by
      simp [List.getElem?_eq_getElem hlt]
    rw [List.take_succ, hget]
    simp only [Option.toList_some, List.reverse_append, List.reverse_singleton,
      List.singleton_append, List.findSome?_cons]
    rw [assetIndexLoop, hget]
    cases h : deser ixs[n].data with
    | some idx => simp [h]
    | none => simp [h, ih (Nat.le_of_lt hlt)]

/-- When `extractAssetId` recovers a leaf index, its result is
`getLeafAssetId` of the tree address and that index. -/
theorem extractAssetId_of_recoveredIndex (deser : String → Option Nat)
    (gla : PubKey → Nat → PubKey) (tx : TxInfo) (treeAddress : PubKey) (i : Nat)
    (h : recoveredIndex deser tx = some i) :
    extractAssetId deser gla tx treeAddress = .ok (some (gla treeAddress i)) := by
  unfold recoveredIndex at h
  unfold extractAssetId
  cases hfind : tx.message.compiledInstructions.findIdx?
      (fun ins => isProgramId tx ins.programIdIndex BUBBLEGUM_PROGRAM_ID) with
  | none => rw [hfind] at h; simp at h
  | some relevantIndex =>
    rw [hfind] at h
    simp only at h ⊢
    cases hentry : (tx.meta.bind (fun m => m.innerInstructions)).bind
        (fun entries => entries[relevantIndex]?) with
    | none => rw [hentry] at h; simp at h
    | some entry =>
      rw [hentry] at h
      simp only at h ⊢
      rw [h]

/-- C1: for every fetched transaction that contains a top-level instruction
executed by the Bubblegum program (and for which inner instructions were
recorded), `extractAssetId` keeps only that instruction's inner instructions
executed by the noop log-wrapper program, scans them from last to first,
attempts to base58-decode and deserialize each as a change-log event, stops at
the first attempt yielding a defined index, and uses that index as the leaf
index of the returned asset id; individual deserialization failures are
skipped, not propagated.  (When no attempt yields an index, the source falls
through to leaf index 0 via bn.js's coercion of `undefined`; see C8.) -/
theorem extractAssetId_scans_noop_in_reverse (deser : String → Option Nat)
    (gla : PubKey → Nat → PubKey) (tx : TxInfo) (treeAddress : PubKey)
    (relevantIndex : Nat) (entry : InnerInstructionEntry)
    (hfind : tx.message.compiledInstructions.findIdx?
        (fun ins => isProgramId tx ins.programIdIndex BUBBLEGUM_PROGRAM_ID) =
      some relevantIndex)
    (hentry : (tx.meta.bind (fun m => m.innerInstructions)).bind
        (fun entries => entries[relevantIndex]?) = some entry) :
    extractAssetId deser gla tx treeAddress =
      match ((entry.instructions.filter
          (fun ins => isProgramId tx ins.programIdIndex SPL_NOOP_PROGRAM_ID)).reverse).findSome?
          (fun ix => deser ix.data) with
      | some idx => .ok (some (gla treeAddress idx))
      | none => .ok (some (gla treeAddress 0)) := by
  unfold extractAssetId
  rw [hfind]
  simp only
  rw [hentry]
  simp only
  rw [assetIndexLoop_eq_findSome deser _ _ (Nat.le_refl _), List.take_length]

/-- Concrete deserializer for witnesses: succeeds with index 3 on data
`"good"`, fails on everything else. -/
def deserW : String → Option Nat := fun s => if s = "good" then some 3 else none

/-- Concrete asset-id derivation for witnesses. -/
def glaW : PubKey → Nat → PubKey := fun t i => 1000 * t + i

/-- Witness transaction: one Bubblegum top-level instruction whose inner
instructions are two noop instructions, the last of which deserializes. -/
def txW : TxInfo :=
  ⟨⟨[BUBBLEGUM_PROGRAM_ID, SPL_NOOP_PROGRAM_ID], [⟨0⟩]⟩,
    some ⟨some [⟨[⟨1, "bad"⟩, ⟨1, "good"⟩]⟩]⟩⟩

theorem extractAssetId_scans_noop_in_reverse_witness :
    extractAssetId deserW glaW txW 7 = .ok (some (glaW 7 3)) := by
  rw [extractAssetId_scans_noop_in_reverse deserW glaW txW 7 0
    ⟨[⟨1, "bad"⟩, ⟨1, "good"⟩]⟩ (by decide) (by decide)]
  rfl

/-- C2: for every fetched transaction with no top-level Bubblegum instruction,
`extractAssetId` returns `undefined` without examining any inner instructions:
the result is `.ok none` whatever the transaction's `meta` holds. -/
theorem extractAssetId_no_bubblegum (deser : String → Option Nat)
    (gla : PubKey → Nat → PubKey) (message : TxMessage)
    (meta1 meta2 : Option TxMeta) (treeAddress : PubKey)
    (hnone : message.compiledInstructions.findIdx?
        (fun ins => isProgramId ⟨message, meta1⟩ ins.programIdIndex BUBBLEGUM_PROGRAM_ID) =
      none) :
    extractAssetId deser gla ⟨message, meta1⟩ treeAddress = .ok none ∧
      extractAssetId deser gla ⟨message, meta2⟩ treeAddress = .ok none := by
  have hnone2 : message.compiledInstructions.findIdx?
      (fun ins => isProgramId ⟨message, meta2⟩ ins.programIdIndex BUBBLEGUM_PROGRAM_ID) =
      none := hnone
  constructor <;> unfold extractAssetId
  · rw [hnone]
  · rw [hnone2]

theorem extractAssetId_no_bubblegum_witness :
    extractAssetId deserW glaW ⟨⟨[5], [⟨0⟩]⟩, none⟩ 7 = .ok none ∧
      extractAssetId deserW glaW ⟨⟨[5], [⟨0⟩]⟩, some ⟨some [⟨[⟨0, "good"⟩]⟩]⟩⟩ 7 =
        .ok none :=
  extractAssetId_no_bubblegum deserW glaW ⟨[5], [⟨0⟩]⟩ none
    (some ⟨some [⟨[⟨0, "good"⟩]⟩]⟩) 7 (by decide)

/-- C3: the returned asset id is a deterministic function of the tree address
and the recovered leaf index alone: two calls of `extractAssetId` that are
given the same tree address and recover the same leaf index return the same
asset id, `getLeafAssetId` of the tree address and that index, regardless of
any other transaction content. -/
theorem extractAssetId_deterministic (deser : String → Option Nat)
    (gla : PubKey → Nat → PubKey) (tx1 tx2 : TxInfo) (treeAddress : PubKey)
    (i : Nat) (h1 : recoveredIndex deser tx1 = some i)
    (h2 : recoveredIndex deser tx2 = some i) :
    extractAssetId deser gla tx1 treeAddress =
        extractAssetId deser gla tx2 treeAddress ∧
      extractAssetId deser gla tx1 treeAddress =
        .ok (some (gla treeAddress i)) := by
  have e1 := extractAssetId_of_recoveredIndex deser gla tx1 treeAddress i h1
  have e2 := extractAssetId_of_recoveredIndex deser gla tx2 treeAddress i h2
  exact ⟨e1.trans e2.symm, e1⟩

/-- A second witness transaction, differing from `txW` in every field that is
not the recovered index: different account-key layout, a single inner
instruction, different data strings. -/
def txW2 : TxInfo :=
  ⟨⟨[9, BUBBLEGUM_PROGRAM_ID, SPL_NOOP_PROGRAM_ID], [⟨0⟩, ⟨1⟩]⟩,
    some ⟨some [⟨[]⟩, ⟨[⟨2, "good"⟩, ⟨0, "ignored"⟩]⟩]⟩⟩

theorem extractAssetId_deterministic_witness :
    extractAssetId deserW glaW txW 7 = extractAssetId deserW glaW txW2 7 ∧
      extractAssetId deserW glaW txW 7 = .ok (some (glaW 7 3)) :=
  extractAssetId_deterministic deserW glaW txW txW2 7 3 (by decide) (by decide)

/-- C8 (as amended): if the fetched transaction contains a Bubblegum
instruction (with recorded inner instructions) but none of its noop inner
instructions deserializes to a change-log event with a defined index,
`extractAssetId` does not return `undefined`: `assetIndex` stays undefined and
`getLeafAssetId` is still called with a `BN` constructed from `undefined` —
which bn.js coerces to `0` (`number || 0`), so the function returns the
spurious asset id derived for leaf index 0 instead of reporting the missing
index and instead of raising an error. -/
theorem extractAssetId_returns_leaf0_when_no_index (deser : String → Option Nat)
    (gla : PubKey → Nat → PubKey) (tx : TxInfo) (treeAddress : PubKey)
    (relevantIndex : Nat) (entry : InnerInstructionEntry)
    (hfind : tx.message.compiledInstructions.findIdx?
        (fun ins => isProgramId tx ins.programIdIndex BUBBLEGUM_PROGRAM_ID) =
      some relevantIndex)
    (hentry : (tx.meta.bind (fun m => m.innerInstructions)).bind
        (fun entries => entries[relevantIndex]?) = some entry)
    (hno : ∀ ix ∈ entry.instructions.filter
        (fun ins => isProgramId tx ins.programIdIndex SPL_NOOP_PROGRAM_ID),
      deser ix.data = none) :
    extractAssetId deser gla tx treeAddress =
      .ok (some (gla treeAddress 0)) := by
  unfold extractAssetId
  rw [hfind]
  simp only
  rw [hentry]
  simp only
  rw [assetIndexLoop_eq_findSome deser _ _ (Nat.le_refl _), List.take_length]
  have : ((entry.instructions.filter
      (fun ins => isProgramId tx ins.programIdIndex SPL_NOOP_PROGRAM_ID)).reverse).findSome?
      (fun ix => deser ix.data) = none := by
    rw [List.findSome?_eq_none_iff]
    intro ix hix
    exact hno ix (List.mem_reverse.mp hix)
  rw [this]

/-- Transaction exercising the missing-index path: one Bubblegum instruction,
one noop inner instruction whose data never deserializes to a defined index. -/
def txW8 : TxInfo :=
  ⟨⟨[BUBBLEGUM_PROGRAM_ID, SPL_NOOP_PROGRAM_ID], [⟨0⟩]⟩,
    some ⟨some [⟨[⟨1, "bad"⟩]⟩]⟩⟩

/-- C8 counterexample to the claim as stated: on `txW8` — a Bubblegum
transaction none of whose noop inner instructions yields an index — the
function does not raise an error; it succeeds with the leaf-0 asset id. -/
theorem extractAssetId_no_throw_counterexample :
    extractAssetId deserW glaW txW8 7 = .ok (some (glaW 7 0)) ∧
      (extractAssetId deserW glaW txW8 7).isOk = true :=
  ⟨rfl, rfl⟩

theorem extractAssetId_returns_leaf0_when_no_index_witness :
    extractAssetId deserW glaW txW8 7 = .ok (some (glaW 7 0)) :=
  extractAssetId_returns_leaf0_when_no_index deserW glaW txW8 7 0 ⟨[⟨1, "bad"⟩]⟩
    (by decide) (by decide) (by decide)

/-- `LAMPORTS_PER_SOL`. -/
def LAMPORTS_PER_SOL : Nat := 1000000000

/-- Devnet RPC responses consumed by `airdropSolIfNeeded` (utils.ts:65-97):
the fetched balance and the outcome of each awaited call inside the `try`
block (`.error` models a rejected promise). -/
structure AirdropRpc where
  balance : Nat
  requestAirdropResult : Except String String
  getLatestBlockhashResult : Except String String
  confirmResult : Except String Unit
  newBalanceResult : Except String Nat

/-- The `try` block of `airdropSolIfNeeded`: requests an airdrop of
`2 * LAMPORTS_PER_SOL`, fetches the latest blockhash, confirms, refetches the
balance.  Returns the list of airdrop amounts requested together with the
block's outcome (the request is initiated before any of the awaits can
reject). -/
def airdropTryBlock (rpc : AirdropRpc) : List Nat × Except String Unit :=
  match rpc.requestAirdropResult with
  | .error e => ([2 * LAMPORTS_PER_SOL], .error e)
  | .ok _txSignature =>
    match rpc.getLatestBlockhashResult with
    | .error e => ([2 * LAMPORTS_PER_SOL], .error e)
    | .ok _latestBlockHash =>
      match rpc.confirmResult with
      | .error e => ([2 * LAMPORTS_PER_SOL], .error e)
      | .ok _ =>
        match rpc.newBalanceResult with
        | .error e => ([2 * LAMPORTS_PER_SOL], .error e)
        | .ok _newBalance => ([2 * LAMPORTS_PER_SOL], .ok ())

/-- `airdropSolIfNeeded` (utils.ts:65-97): if the fetched balance is below
1 SOL, run the `try` block and catch any failure (logging it); otherwise do
nothing.  The result pairs the airdrop amounts requested with the outcome
surfaced to the caller. -/
def airdropSolIfNeeded (rpc : AirdropRpc) : List Nat × Except String Unit :=
  if rpc.balance < 1 * LAMPORTS_PER_SOL then
    match airdropTryBlock rpc with
    | (requests, .error _e) => (requests, .ok ())
    | (requests, .ok _) => (requests, .ok ())
  else ([], .ok ())

/-- C6: `airdropSolIfNeeded` requests an airdrop of exactly 2 SOL if and only
if the fetched balance is strictly below 1 SOL, performs no state-changing
call otherwise, and catches any failure of the airdrop attempt, so it never
surfaces an error to its caller. -/
theorem airdropSolIfNeeded_two_sol_iff_low_balance (rpc : AirdropRpc) :
    (airdropSolIfNeeded rpc).1 =
        (if rpc.balance < 1 * LAMPORTS_PER_SOL then [2 * LAMPORTS_PER_SOL] else []) ∧
      (airdropSolIfNeeded rpc).2 = .ok () := by
  unfold airdropSolIfNeeded airdropTryBlock
  by_cases h : rpc.balance < 1 * LAMPORTS_PER_SOL <;>
    simp only [h, if_true, if_false, reduceIte] <;>
    cases rpc.requestAirdropResult <;>
    cases rpc.getLatestBlockhashResult <;>
    cases rpc.confirmResult <;>
    cases rpc.newBalanceResult <;> simp

/-- The decimal digit character for a digit value (`0 ↦ '0', ..., 9 ↦ '9'`). -/
def decDigitChar (d : Nat) : Char := Char.ofNat (48 + d)

/-- The digit value of a decimal digit character, `none` for any other
character. -/
def decDigitVal (c : Char) : Option Nat :=
  if 48 ≤ c.toNat ∧ c.toNat ≤ 57 then some (c.toNat - 48) else none

/-- The decimal character representation of a number, as printed by
`JSON.stringify` (most significant digit first, `0` printed as `"0"`). -/
def natChars (n : Nat) : List Char :=
  if n = 0 then ['0'] else ((Nat.digits 10 n).map decDigitChar).reverse

/-- Parse a run of decimal digit characters, most significant first, onto an
accumulator. -/
def parseDigitsAcc : List Char → Nat → Option Nat
  | [], acc => some acc
  | c :: cs, acc =>
    match decDigitVal c with
    | none => none
    | some d => parseDigitsAcc cs (acc * 10 + d)

/-- Parse a nonempty run of decimal digit characters as a number (the model of
`JSON.parse` on a number token). -/
def parseNatChars (cs : List Char) : Option Nat :=
  if cs.isEmpty then none else parseDigitsAcc cs 0

theorem decDigitVal_decDigitChar : ∀ d, d < 10 → decDigitVal (decDigitChar d) = some d := by
  decide

theorem decDigitChar_ne_comma : ∀ d, d < 10 → decDigitChar d ≠ ',' := by
  decide

theorem parseDigitsAcc_append (xs ys : List Char) (acc : Nat) :
    parseDigitsAcc (xs ++ ys) acc =
      match parseDigitsAcc xs acc with
      | none => none
      | some a => parseDigitsAcc ys a := by
  induction xs generalizing acc with
  | nil => rfl
  | cons c cs ih =>
    simp only [List.cons_append, parseDigitsAcc]
    cases decDigitVal c with
    | none => rfl
    | some d => exact ih (acc * 10 + d)

theorem parseDigitsAcc_digits (ds : List Nat) (hds : ∀ d ∈ ds, d < 10) :
    ∀ acc, parseDigitsAcc ((ds.map decDigitChar).reverse) acc =
      some (acc * 10 ^ ds.length + Nat.ofDigits 10 ds) := by
  induction ds with
  | nil => intro acc; simp [parseDigitsAcc, Nat.ofDigits_nil]
  | cons d rest ih =>
    intro acc
    have hd : d < 10 := hds d (List.mem_cons_self d rest)
    have hrest : ∀ x ∈ rest, x < 10 := fun x hx => hds x (List.mem_cons_of_mem d hx)
    simp only [List.map_cons, List.reverse_cons, parseDigitsAcc_append,
      ih hrest acc]
    simp only [parseDigitsAcc, decDigitVal_decDigitChar d hd, Nat.ofDigits_cons,
      List.length_cons]
    congr 1
    ring

theorem parseNatChars_natChars (n : Nat) : parseNatChars (natChars n) = some n := by
  by_cases h : n = 0
  · subst h; rfl
  · have hne : Nat.digits 10 n ≠ [] := Nat.digits_ne_nil_iff_ne_zero.mpr h
    have hlt : ∀ d ∈ Nat.digits 10 n, d < 10 :=
      fun d hd => Nat.digits_lt_base (by norm_num) hd
    unfold natChars
    rw [if_neg h]
    unfold parseNatChars
    have hnonempty : (((Nat.digits 10 n).map decDigitChar).reverse).isEmpty = false := by
      simp [List.isEmpty_iff, hne]
    rw [hnonempty]
    simp only [Bool.false_eq_true, if_false]
    rw [parseDigitsAcc_digits (Nat.digits 10 n) hlt 0]
    simp [Nat.ofDigits_digits]

theorem natChars_ne_comma (n : Nat) : ∀ c ∈ natChars n, c ≠ ',' := by
  intro c hc
  unfold natChars at hc
  by_cases h : n = 0
  · rw [if_pos h] at hc
    simp at hc
    subst hc; decide
  · rw [if_neg h] at hc
    rw [List.mem_reverse, List.mem_map] at hc
    obtain ⟨d, hd, rfl⟩ := hc
    exact decDigitChar_ne_comma d (Nat.digits_lt_base (by norm_num) hd)

theorem natChars_ne_nil (n : Nat) : natChars n ≠ [] := by
  unfold natChars
  by_cases h : n = 0
  · rw [if_pos h]; simp
  · rw [if_neg h]
    simp [Nat.digits_ne_nil_iff_ne_zero.mpr h]

/-- Split a character list at each comma (the model of tokenizing a JSON
number array's elements). -/
def splitOnComma : List Char → List (List Char)
  | [] => [[]]
  | c :: cs =>
    if c = ',' then [] :: splitOnComma cs
    else
      match splitOnComma cs with
      | [] => [[c]]
      | p :: ps => (c :: p) :: ps

/-- Comma-join of the element representations, as produced by
`JSON.stringify` for an array. -/
def joinComma : List (List Char) → List Char
  | [] => []
  | [p] => p
  | p :: q :: ps => p ++ ',' :: joinComma (q :: ps)

theorem splitOnComma_ne_nil (cs : List Char) : splitOnComma cs ≠ [] := by
  induction cs with
  | nil => simp [splitOnComma]
  | cons c cs ih =>
    unfold splitOnComma
    by_cases h : c = ','
    · simp [h]
    · rw [if_neg h]
      cases hs : splitOnComma cs with
      | nil => simp
      | cons p ps => simp

theorem splitOnComma_of_no_comma (a : List Char) (ha : ∀ c ∈ a, c ≠ ',') :
    splitOnComma a = [a] := by
  induction a with
  | nil => rfl
  | cons c cs ih =>
    have hc : c ≠ ',' := ha c (List.mem_cons_self c cs)
    have hcs : ∀ x ∈ cs, x ≠ ',' := fun x hx => ha x (List.mem_cons_of_mem c hx)
    unfold splitOnComma
    rw [if_neg hc, ih hcs]

theorem splitOnComma_append_comma (a rest : List Char) (ha : ∀ c ∈ a, c ≠ ',') :
    splitOnComma (a ++ ',' :: rest) = a :: splitOnComma rest := by
  induction a with
  | nil => simp [splitOnComma]
  | cons c cs ih =>
    have hc : c ≠ ',' := ha c (List.mem_cons_self c cs)
    have hcs : ∀ x ∈ cs, x ≠ ',' := fun x hx => ha x (List.mem_cons_of_mem c hx)
    simp only [List.cons_append]
    rw [splitOnComma, if_neg hc, ih hcs]

theorem splitOnComma_joinComma (parts : List (List Char))
    (hne : parts ≠ []) (hcf : ∀ p ∈ parts, ∀ c ∈ p, c ≠ ',') :
    splitOnComma (joinComma parts) = parts := by
  induction parts with
  | nil => exact absurd rfl hne
  | cons p ps ih =>
    cases ps with
    | nil =>
      exact splitOnComma_of_no_comma p (hcf p (List.mem_cons_self p []))
    | cons q qs =>
      have hp : ∀ c ∈ p, c ≠ ',' := hcf p (List.mem_cons_self p (q :: qs))
      have hqs : ∀ r ∈ q :: qs, ∀ c ∈ r, c ≠ ',' :=
        fun r hr => hcf r (List.mem_cons_of_mem p hr)
      rw [joinComma, splitOnComma_append_comma p _ hp,
        ih (by simp) hqs]

/-- Parse every element token as a number (`JSON.parse` on the array body). -/
def parseAllNatChars : List (List Char) → Option (List Nat)
  | [] => some []
  | p :: ps =>
    match parseNatChars p with
    | none => none
    | some n =>
      match parseAllNatChars ps with
      | none => none
      | some ns => some (n :: ns)

theorem parseAllNatChars_natChars (l : List Nat) :
    parseAllNatChars (l.map natChars) = some l := by
  induction l with
  | nil => rfl
  | cons n ns ih =>
    simp only [List.map_cons, parseAllNatChars, parseNatChars_natChars n, ih]

/-- `JSON.stringify(Array.from(secretKey))` (utils.ts:50): the decimal
representations of the bytes, comma-joined, in square brackets. -/
def stringifySecretKey (l : Bytes) : String :=
  ⟨'[' :: (joinComma (l.map natChars) ++ [']'])⟩

/-- `JSON.parse` restricted to arrays of numbers, the only shape
`getOrCreateKeypair` stores and reads back (utils.ts:56): strip the square
brackets, split the body at commas, parse every token as a number; anything
else is a parse error (`none` models the thrown `SyntaxError`). -/
def parseJsonNatArray (s : String) : Option (List Nat) :=
  match s.data with
  | '[' :: rest =>
    match rest.getLast? with
    | some ']' =>
      let inner := rest.dropLast
      if inner.isEmpty then some [] else parseAllNatChars (splitOnComma inner)
    | _ => none
  | _ => none

/-- The two external JSON builtins round-trip on byte arrays. -/
theorem parseJsonNatArray_stringifySecretKey (l : Bytes) :
    parseJsonNatArray (stringifySecretKey l) = some l := by
  unfold parseJsonNatArray stringifySecretKey
  simp only [List.getLast?_concat, List.dropLast_concat]
  cases l with
  | nil => rfl
  | cons n ns =>
    have hjoin_ne : (joinComma ((n :: ns).map natChars)).isEmpty = false := by
      rw [List.isEmpty_eq_false_iff_exists_mem]
      cases hns : ns with
      | nil =>
        simp only [List.map_cons, List.map_nil, joinComma]
        obtain ⟨c, hc⟩ := List.exists_mem_of_ne_nil _ (natChars_ne_nil n)
        exact ⟨c, hc⟩
      | cons m ms =>
        simp only [List.map_cons, joinComma]
        obtain ⟨c, hc⟩ := List.exists_mem_of_ne_nil _ (natChars_ne_nil n)
        exact ⟨c, by simp [hc]⟩
    rw [hjoin_ne]
    simp only [Bool.false_eq_true, if_false]
    rw [splitOnComma_joinComma _ (by simp)
      (by
        intro p hp c hc
        rw [List.mem_map] at hp
        obtain ⟨m, _, rfl⟩ := hp
        exact natChars_ne_comma m c hc)]
    exact parseAllNatChars_natChars (n :: ns)

/-- A keypair, tracked by its secret key; the public key is derived from the
secret key by the SDK and plays no role in the storing round-trip. -/
structure Keypair where
  secretKey : Bytes
  deriving Repr, DecidableEq

/-- `Keypair.fromSecretKey`. -/
def Keypair.fromSecretKey (sk : Bytes) : Keypair := ⟨sk⟩

/-- The environment `getOrCreateKeypair` runs in: `process.env` (as loaded by
`dotenv.config()`) and the contents of the `.env` file. -/
structure EnvState where
  env : String → Option String
  envFile : String

/-- `getOrCreateKeypair` (utils.ts:34-63).  `generated` models the fresh
`Keypair.generate()` drawn when no stored key is found.  JS truthiness: the
key is treated as absent when `process.env[walletName]` is `undefined` or the
empty string (`if (!envWalletKey)`).  On a miss the fresh keypair's secret key
is appended to the `.env` file as `\n<walletName>=<JSON array>` and the fresh
keypair returned; on a hit the stored JSON is parsed and
`Keypair.fromSecretKey` of it returned with the file untouched; a stored value
`JSON.parse` rejects is a thrown `SyntaxError`. -/
def getOrCreateKeypair (generated : Keypair) (walletName : String)
    (st : EnvState) : Except String Keypair × EnvState :=
  match st.env walletName with
  | none =>
    (.ok generated,
      ⟨st.env,
        st.envFile ++ "\n" ++ walletName ++ "=" ++
          stringifySecretKey generated.secretKey⟩)
  | some envWalletKey =>
    if envWalletKey = "" then
      (.ok generated,
        ⟨st.env,
          st.envFile ++ "\n" ++ walletName ++ "=" ++
            stringifySecretKey generated.secretKey⟩)
    else
      match parseJsonNatArray envWalletKey with
      | some secretKey => (.ok (Keypair.fromSecretKey secretKey), st)
      | none => (.error "SyntaxError: JSON.parse", st)

/-- C5: `getOrCreateKeypair` is a storing round-trip.  If the environment
holds no secret key under `walletName` (absent or empty), it returns the
freshly generated keypair and appends `walletName=<JSON secret-key array>` to
the `.env` file without touching the environment; any later call that finds a
stored secret key returns `Keypair.fromSecretKey` of the parsed value and
leaves the `.env` file unchanged; in particular, once the environment reflects
what was written, the later call returns a keypair with the same secret key. -/
theorem getOrCreateKeypair_storing_roundtrip (generated generated2 : Keypair)
    (walletName : String) (st : EnvState) (env2 : String → Option String)
    (hAbsent : st.env walletName = none ∨ st.env walletName = some "")
    (hReflects : env2 walletName = some (stringifySecretKey generated.secretKey)) :
    getOrCreateKeypair generated walletName st =
        (.ok generated,
          ⟨st.env,
            st.envFile ++ "\n" ++ walletName ++ "=" ++
              stringifySecretKey generated.secretKey⟩) ∧
      (∀ file2 : String,
        getOrCreateKeypair generated2 walletName ⟨env2, file2⟩ =
          (.ok (Keypair.fromSecretKey generated.secretKey), ⟨env2, file2⟩)) ∧
      (Keypair.fromSecretKey generated.secretKey).secretKey =
        generated.secretKey := by
  refine ⟨?_, ?_, rfl⟩
  · unfold getOrCreateKeypair
    rcases hAbsent with h | h <;> rw [h]
    simp
  · intro file2
    have hne : stringifySecretKey generated.secretKey ≠ "" := by
      unfold stringifySecretKey
      intro hcontra
      have : ('[' :: (joinComma (generated.secretKey.map natChars) ++ [']'])) =
          ([] : List Char) := congrArg String.data hcontra
      simp at this
    unfold getOrCreateKeypair
    simp only [hReflects]
    rw [if_neg hne, parseJsonNatArray_stringifySecretKey]

theorem getOrCreateKeypair_storing_roundtrip_witness :
    getOrCreateKeypair ⟨[7, 200]⟩ "Wallet_1" ⟨fun _ => none, "KEEP"⟩ =
        (.ok ⟨[7, 200]⟩,
          ⟨fun _ => none,
            "KEEP" ++ "\n" ++ "Wallet_1" ++ "=" ++ stringifySecretKey [7, 200]⟩) ∧
      (∀ file2 : String,
        getOrCreateKeypair ⟨[9]⟩ "Wallet_1"
            ⟨fun n => if n = "Wallet_1" then some (stringifySecretKey [7, 200]) else none,
              file2⟩ =
          (.ok (Keypair.fromSecretKey [7, 200]),
            ⟨fun n => if n = "Wallet_1" then some (stringifySecretKey [7, 200]) else none,
              file2⟩)) ∧
      (Keypair.fromSecretKey ([7, 200] : Bytes)).secretKey = [7, 200] :=
  getOrCreateKeypair_storing_roundtrip ⟨[7, 200]⟩ ⟨[9]⟩ "Wallet_1"
    ⟨fun _ => none, "KEEP"⟩
    (fun n => if n = "Wallet_1" then some (stringifySecretKey [7, 200]) else none)
    (Or.inl rfl) (by simp)

/-!
Embedding of the cNFT demo script (`src/index.ts`, the plain create → mint ×2
→ transfer → burn demo, lines 376-674).  The `Connection` is implicit; every
sent transaction and Helius RPC query becomes an `Event` in an effect trace,
and RPC responses come from a `DemoOracle`.
-/

/-- A `web3.js` `AccountMeta`. -/
structure AccountMeta where
  pubkey : PubKey
  isSigner : Bool
  isWritable : Bool
  deriving Repr, DecidableEq

/-- A `ValidDepthSizePair`. -/
structure DepthSizePair where
  maxDepth : Nat
  maxBufferSize : Nat
  deriving Repr, DecidableEq

/-- Accounts of `createCreateTreeInstruction`. -/
structure CreateTreeAccounts where
  treeAuthority : PubKey
  merkleTree : PubKey
  payer : PubKey
  treeCreator : PubKey
  logWrapper : PubKey
  compressionProgram : PubKey
  deriving Repr, DecidableEq

/-- Args of `createCreateTreeInstruction` (`public` is the JS field name). -/
structure CreateTreeArgs where
  maxBufferSize : Nat
  maxDepth : Nat
  public : Bool
  deriving Repr, DecidableEq

/-- One metadata creator entry. -/
structure Creator where
  address : PubKey
  verified : Bool
  share : Nat
  deriving Repr, DecidableEq

/-- `MetadataArgs` of mpl-bubblegum; the enum tags `TokenProgramVersion` and
`TokenStandard` are modelled by their numeric values
(`Original = 0`, `NonFungible = 0`). -/
structure MetadataArgs where
  name : String
  symbol : String
  uri : String
  creators : List Creator
  editionNonce : Nat
  uses : Option Unit
  collection : Option PubKey
  primarySaleHappened : Bool
  sellerFeeBasisPoints : Nat
  isMutable : Bool
  tokenProgramVersion : Nat
  tokenStandard : Nat
  deriving Repr, DecidableEq

/-- `createCompressedNFTMetadata` (utils.ts:140-161); `randomUri` models the
`Math.random()` pick from `uris`. -/
def createCompressedNFTMetadata (randomUri : String) (creatorPublicKey : PubKey) :
    MetadataArgs :=
  ⟨"CNFT", "CNFT", randomUri, [⟨creatorPublicKey, false, 100⟩],
    0, none, none, false, 0, false, 0, 0⟩

/-- Accounts of `createMintV1Instruction`. -/
structure MintV1Accounts where
  payer : PubKey
  merkleTree : PubKey
  treeAuthority : PubKey
  treeDelegate : PubKey
  leafOwner : PubKey
  leafDelegate : PubKey
  compressionProgram : PubKey
  logWrapper : PubKey
  deriving Repr, DecidableEq

/-- Accounts of `createTransferInstruction`. -/
structure TransferAccounts where
  merkleTree : PubKey
  treeAuthority : PubKey
  leafOwner : PubKey
  leafDelegate : PubKey
  newLeafOwner : PubKey
  logWrapper : PubKey
  compressionProgram : PubKey
  anchorRemainingAccounts : List AccountMeta
  deriving Repr, DecidableEq

/-- Accounts of `createBurnInstruction`. -/
structure BurnAccounts where
  treeAuthority : PubKey
  leafOwner : PubKey
  leafDelegate : PubKey
  merkleTree : PubKey
  logWrapper : PubKey
  compressionProgram : PubKey
  anchorRemainingAccounts : List AccountMeta
  deriving Repr, DecidableEq

/-- Args shared by the transfer and burn instructions. -/
structure LeafArgs where
  root : Bytes
  dataHash : Bytes
  creatorHash : Bytes
  nonce : Nat
  index : Nat
  deriving Repr, DecidableEq

/-- The instructions the demo script builds. -/
inductive Instr where
  | allocTree (merkleTree : PubKey) (payer : PubKey) (pair : DepthSizePair)
      (canopyDepth : Int)
  | createTree (accounts : CreateTreeAccounts) (args : CreateTreeArgs)
      (programId : PubKey)
  | mintV1 (accounts : MintV1Accounts) (message : MetadataArgs)
  | transfer (accounts : TransferAccounts) (args : LeafArgs) (programId : PubKey)
  | burn (accounts : BurnAccounts) (args : LeafArgs) (programId : PubKey)
  deriving Repr, DecidableEq

/-- The observable effects of the demo: transactions sent with
`sendAndConfirmTransaction` (instructions, fee payer, signers) and Helius RPC
queries. -/
inductive Event where
  | sentTx (instructions : List Instr) (feePayer : PubKey) (signers : List PubKey)
  | heliusQuery (method : String) (assetId : PubKey)
  deriving Repr, DecidableEq

/-- `getAsset` response fields the script reads (`compression`, `ownership`).
The `data_hash`/`creator_hash` strings are base-58 32-byte values; they are
modelled as keys and their decoded bytes via `pubKeyToBuffer` (the source's
`new PublicKey(s.trim()).toBytes()`). -/
structure AssetCompression where
  tree : PubKey
  dataHash : PubKey
  creatorHash : PubKey
  leafId : Nat
  deriving Repr, DecidableEq

structure AssetOwnership where
  owner : PubKey
  delegate : Option PubKey
  deriving Repr, DecidableEq

structure AssetData where
  compression : AssetCompression
  ownership : AssetOwnership
  deriving Repr, DecidableEq

/-- `getAssetProof` response fields the script reads. -/
structure AssetProofData where
  proof : List PubKey
  root : PubKey
  deriving Repr, DecidableEq

/-- The fields of a fetched `ConcurrentMerkleTreeAccount` the script reads;
`canopyDepth = none` models a tree account reporting no canopy
(`getCanopyDepth() || 0` then defaults to `0`). -/
structure TreeAccountInfo where
  authority : PubKey
  canopyDepth : Option Nat
  deriving Repr, DecidableEq

/-- Oracle for the demo's external world: the PDA derivation
(`findProgramAddressSync`), the SDK asset-id derivation, the change-log
deserializer, the generated tree keypair, the RPC responses, the transaction
signatures returned by the two mint sends, and the random URI picks. -/
structure DemoOracle where
  fpa : List Bytes → PubKey → PubKey × Nat
  getLeafAssetId : PubKey → Nat → PubKey
  deser : String → Option Nat
  treeKeypairPub : PubKey
  txInfoOf : String → TxInfo
  assetDataOf : PubKey → AssetData
  assetProofOf : PubKey → AssetProofData
  treeAccountOf : PubKey → TreeAccountInfo
  mintSig1 : String
  mintSig2 : String
  randomUri1 : String
  randomUri2 : String

/-- JS `Array.prototype.slice(start, end)`: negative bounds count from the
end, and bounds are clamped to `[0, length]`. -/
def jsSlice {α : Type} (l : List α) (start stop : Int) : List α :=
  (l.take
      (if stop < 0 then max ((l.length : Int) + stop) 0
        else min stop (l.length : Int)).toNat).drop
    (if start < 0 then max ((l.length : Int) + start) 0
      else min start (l.length : Int)).toNat

/-- The proof path built by `transferCompressedNFT` (index.ts:550-556): each
proof node becomes a non-signer, non-writable account meta, then
`.slice(0, proof.length - canopyDepth)`. -/
def transferProofPath (proof : List PubKey) (canopyDepth : Nat) : List AccountMeta :=
  jsSlice (proof.map (fun node => ⟨node, false, false⟩)) 0
    ((proof.length : Int) - (canopyDepth : Int))

/-- The proof path built by `burnCompressedNFT` (index.ts:628-634), the same
computation repeated. -/
def burnProofPath (proof : List PubKey) (canopyDepth : Nat) : List AccountMeta :=
  jsSlice (proof.map (fun node => ⟨node, false, false⟩)) 0
    ((proof.length : Int) - (canopyDepth : Int))

/-- `createTree` of the demo script (index.ts:403-464): generate the tree
keypair (oracle), derive the tree authority PDA from the tree address under
the Bubblegum program, build the alloc and create-tree instructions, send them
in one transaction signed by the tree keypair and the payer, and return the
tree address. -/
def createTreeDemo (o : DemoOracle) (payer : PubKey) (maxDepthSizePair : DepthSizePair)
    (canopyDepth : Int) : PubKey × List Event :=
  let treeKeypair := o.treeKeypairPub
  let treeAuthority := (o.fpa [pubKeyToBuffer treeKeypair] BUBBLEGUM_PROGRAM_ID).1
  let allocTreeIx := Instr.allocTree treeKeypair payer maxDepthSizePair canopyDepth
  let createTreeIx := Instr.createTree
    ⟨treeAuthority, treeKeypair, payer, payer, SPL_NOOP_PROGRAM_ID,
      SPL_ACCOUNT_COMPRESSION_PROGRAM_ID⟩
    ⟨maxDepthSizePair.maxBufferSize, maxDepthSizePair.maxDepth, false⟩
    BUBBLEGUM_PROGRAM_ID
  (treeKeypair, [Event.sentTx [allocTreeIx, createTreeIx] payer [treeKeypair, payer]])

/-- `mintCompressedNFT` of the demo script (index.ts:466-520): build the
metadata, derive the tree authority PDA from the tree address under the
Bubblegum program, send the mint-V1 instruction, then recover the asset id
from the sent transaction (`txSignature` is the signature the send returned,
supplied by the oracle through the caller). -/
def mintCompressedNFTDemo (o : DemoOracle) (payer treeAddress : PubKey)
    (randomUri txSignature : String) :
    Except String (Option PubKey) × List Event :=
  let compressedNFTMetadata := createCompressedNFTMetadata randomUri payer
  let treeAuthority := (o.fpa [pubKeyToBuffer treeAddress] BUBBLEGUM_PROGRAM_ID).1
  let mintIx := Instr.mintV1
    ⟨payer, treeAddress, treeAuthority, payer, payer, payer,
      SPL_ACCOUNT_COMPRESSION_PROGRAM_ID, SPL_NOOP_PROGRAM_ID⟩
    compressedNFTMetadata
  (extractAssetId o.deser o.getLeafAssetId (o.txInfoOf txSignature) treeAddress,
    [Event.sentTx [mintIx] payer [payer]])

/-- `transferCompressedNFT` (index.ts:522-599): fetch the asset and its proof
from Helius, read the tree account, build the transfer instruction whose
remaining accounts are the proof path, and send it signed by the sender.  The
demo may hand this function an `undefined` asset id (when `extractAssetId`
returned none); `assetId.toBase58()` then throws, which the `catch` rethrows. -/
def transferCompressedNFTDemo (o : DemoOracle) (assetId : Option PubKey)
    (sender receiver : PubKey) : Except String Unit × List Event :=
  match assetId with
  | none => (.error "TypeError: assetId undefined", [])
  | some asset =>
    let assetData := o.assetDataOf asset
    let assetProofData := o.assetProofOf asset
    let treePublicKey := assetData.compression.tree
    let ownerPublicKey := assetData.ownership.owner
    let delegatePublicKey := (assetData.ownership.delegate).getD ownerPublicKey
    let treeAccount := o.treeAccountOf treePublicKey
    let treeAuthority := treeAccount.authority
    let canopyDepth := treeAccount.canopyDepth.getD 0
    let proofPath := transferProofPath assetProofData.proof canopyDepth
    let newLeafOwner := receiver
    let transferIx := Instr.transfer
      ⟨treePublicKey, treeAuthority, ownerPublicKey, delegatePublicKey,
        newLeafOwner, SPL_NOOP_PROGRAM_ID, SPL_ACCOUNT_COMPRESSION_PROGRAM_ID,
        proofPath⟩
      ⟨pubKeyToBuffer assetProofData.root,
        pubKeyToBuffer assetData.compression.dataHash,
        pubKeyToBuffer assetData.compression.creatorHash,
        assetData.compression.leafId, assetData.compression.leafId⟩
      BUBBLEGUM_PROGRAM_ID
    (.ok (),
      [Event.heliusQuery "getAsset" asset, Event.heliusQuery "getAssetProof" asset,
        Event.sentTx [transferIx] sender [sender]])

/-- `burnCompressedNFT` (index.ts:601-674): same fetches as the transfer,
then the burn instruction with the proof path as remaining accounts, signed by
the payer. -/
def burnCompressedNFTDemo (o : DemoOracle) (assetId : Option PubKey)
    (payer : PubKey) : Except String Unit × List Event :=
  match assetId with
  | none => (.error "TypeError: assetId undefined", [])
  | some asset =>
    let assetData := o.assetDataOf asset
    let assetProofData := o.assetProofOf asset
    let treePublicKey := assetData.compression.tree
    let ownerPublicKey := assetData.ownership.owner
    let delegatePublicKey := (assetData.ownership.delegate).getD ownerPublicKey
    let treeAccount := o.treeAccountOf treePublicKey
    let treeAuthority := treeAccount.authority
    let canopyDepth := treeAccount.canopyDepth.getD 0
    let proofPath := burnProofPath assetProofData.proof canopyDepth
    let burnIx := Instr.burn
      ⟨treeAuthority, ownerPublicKey, delegatePublicKey, treePublicKey,
        SPL_NOOP_PROGRAM_ID, SPL_ACCOUNT_COMPRESSION_PROGRAM_ID, proofPath⟩
      ⟨pubKeyToBuffer assetProofData.root,
        pubKeyToBuffer assetData.compression.dataHash,
        pubKeyToBuffer assetData.compression.creatorHash,
        assetData.compression.leafId, assetData.compression.leafId⟩
      BUBBLEGUM_PROGRAM_ID
    (.ok (),
      [Event.heliusQuery "getAsset" asset, Event.heliusQuery "getAssetProof" asset,
        Event.sentTx [burnIx] payer [payer]])

/-- `main` of the demo script (index.ts:376-401): create the tree, mint two
compressed NFTs to it (each recovering its asset id from the mint
transaction), transfer the first from wallet 1 to wallet 2, burn the second.
The un-awaited `airdropSolIfNeeded(wallet.publicKey)` runs concurrently,
touches no data of these steps, and is modelled separately
(`airdropSolIfNeeded` above).  The trace collects the events of every step
that ran; a thrown error aborts the remaining steps. -/
def mainDemo (o : DemoOracle) (wallet wallet2 : PubKey) :
    List Event × Except String Unit :=
  let maxDepthSizePair : DepthSizePair := ⟨3, 8⟩
  let canopyDepth : Int := 0
  let r0 := createTreeDemo o wallet maxDepthSizePair canopyDepth
  let treeAddress := r0.1
  let r1 := mintCompressedNFTDemo o wallet treeAddress o.randomUri1 o.mintSig1
  match r1.1 with
  | .error e => (r0.2 ++ r1.2, .error e)
  | .ok assetId1 =>
    let r2 := mintCompressedNFTDemo o wallet treeAddress o.randomUri2 o.mintSig2
    match r2.1 with
    | .error e => (r0.2 ++ r1.2 ++ r2.2, .error e)
    | .ok assetId2 =>
      let r3 := transferCompressedNFTDemo o assetId1 wallet wallet2
      match r3.1 with
      | .error e => (r0.2 ++ r1.2 ++ r2.2 ++ r3.2, .error e)
      | .ok _ =>
        let r4 := burnCompressedNFTDemo o assetId2 wallet
        match r4.1 with
        | .error e => (r0.2 ++ r1.2 ++ r2.2 ++ r3.2 ++ r4.2, .error e)
        | .ok _ => (r0.2 ++ r1.2 ++ r2.2 ++ r3.2 ++ r4.2, .ok ())

/-- All instructions of the transactions sent in a trace, in order. -/
def sentInstrs (events : List Event) : List Instr :=
  events.foldr
    (fun e acc =>
      match e with
      | .sentTx ixs _ _ => ixs ++ acc
      | _ => acc) []

/-- The tree-authority account an instruction targets, for the instructions
that carry one. -/
def instrTreeAuthority : Instr → Option PubKey
  | .createTree accounts _ _ => some accounts.treeAuthority
  | .mintV1 accounts _ => some accounts.treeAuthority
  | _ => none

/-- C4: for every tree address, the tree authority is the program-derived
address whose sole seed is the tree address under the Bubblegum program id:
the create-tree instruction built by `createTree` and the mint instruction
built by `mintCompressedNFT` for the created tree both carry exactly
`findProgramAddressSync([treeAddress], BUBBLEGUM_PROGRAM_ID)`, so the mint
targets the very authority created with the tree. -/
theorem treeAuthority_pda_consistent (o : DemoOracle) (payer payer2 : PubKey)
    (maxDepthSizePair : DepthSizePair) (canopyDepth : Int)
    (randomUri txSignature : String) :
    (sentInstrs (createTreeDemo o payer maxDepthSizePair canopyDepth).2).filterMap
        instrTreeAuthority =
      [(o.fpa [pubKeyToBuffer o.treeKeypairPub] BUBBLEGUM_PROGRAM_ID).1] ∧
    (sentInstrs
        (mintCompressedNFTDemo o payer2 o.treeKeypairPub randomUri txSignature).2).filterMap
        instrTreeAuthority =
      [(o.fpa [pubKeyToBuffer o.treeKeypairPub] BUBBLEGUM_PROGRAM_ID).1] := by
  constructor <;> rfl

/-- The operation a transaction or query performs, for stating the demo's
order of operations. -/
inductive OpKind where
  | createTreeOp (merkleTree : PubKey)
  | mintOp (merkleTree leafOwner : PubKey)
  | queryOp (method : String) (assetId : PubKey)
  | transferOp (merkleTree leafOwner newLeafOwner : PubKey)
  | burnOp (merkleTree leafOwner : PubKey)
  | otherOp
  deriving Repr, DecidableEq

/-- Classify a sent transaction by its instruction list. -/
def txOpKind : List Instr → OpKind
  | [Instr.allocTree _ _ _ _, Instr.createTree accounts _ _] =>
      .createTreeOp accounts.merkleTree
  | [Instr.mintV1 accounts _] => .mintOp accounts.merkleTree accounts.leafOwner
  | [Instr.transfer accounts _ _] =>
      .transferOp accounts.merkleTree accounts.leafOwner accounts.newLeafOwner
  | [Instr.burn accounts _ _] => .burnOp accounts.merkleTree accounts.leafOwner
  | _ => .otherOp

/-- Classify every event of a trace. -/
def eventOps (events : List Event) : List OpKind :=
  events.map
    (fun e =>
      match e with
      | .sentTx ixs _ _ => txOpKind ixs
      | .heliusQuery method assetId => OpKind.queryOp method assetId)

/-- C7: when both mint transactions yield an asset id from their logs, the
demo's `main` performs the four advertised operations in order — create the
tree, mint two compressed NFTs to that same tree, transfer the first minted
NFT from wallet 1 to wallet 2 (querying Helius for it first), and burn the
second — each later operation consuming an output of an earlier one, and the
run completes without error. -/
theorem mainDemo_operations_in_order (o : DemoOracle) (wallet wallet2 : PubKey)
    (a1 a2 : PubKey)
    (h1 : extractAssetId o.deser o.getLeafAssetId (o.txInfoOf o.mintSig1)
        o.treeKeypairPub = .ok (some a1))
    (h2 : extractAssetId o.deser o.getLeafAssetId (o.txInfoOf o.mintSig2)
        o.treeKeypairPub = .ok (some a2)) :
    eventOps (mainDemo o wallet wallet2).1 =
        [OpKind.createTreeOp o.treeKeypairPub,
          OpKind.mintOp o.treeKeypairPub wallet,
          OpKind.mintOp o.treeKeypairPub wallet,
          OpKind.queryOp "getAsset" a1, OpKind.queryOp "getAssetProof" a1,
          OpKind.transferOp (o.assetDataOf a1).compression.tree
            (o.assetDataOf a1).ownership.owner wallet2,
          OpKind.queryOp "getAsset" a2, OpKind.queryOp "getAssetProof" a2,
          OpKind.burnOp (o.assetDataOf a2).compression.tree
            (o.assetDataOf a2).ownership.owner] ∧
      (mainDemo o wallet wallet2).2 = .ok () := by
  unfold mainDemo createTreeDemo mintCompressedNFTDemo transferCompressedNFTDemo
    burnCompressedNFTDemo
  simp [h1, h2, eventOps, txOpKind]

/-- `slice(0, l.length - k)` with `k ≤ l.length` keeps the first
`l.length - k` elements. -/
theorem jsSlice_zero_sub {α : Type} (l : List α) (k : Nat) (h : k ≤ l.length) :
    jsSlice l 0 ((l.length : Int) - (k : Int)) = l.take (l.length - k) := by
  unfold jsSlice
  have h2 : ¬ (((l.length : Int) - (k : Int)) < 0) := by omega
  have h3 : ¬ ((0 : Int) < 0) := by omega
  rw [if_neg h3, if_neg h2]
  have h5 : min ((l.length : Int) - (k : Int)) (l.length : Int) =
      (l.length : Int) - (k : Int) := by omega
  have h4 : min (0 : Int) (l.length : Int) = 0 := by omega
  rw [h4, h5]
  have h6 : ((l.length : Int) - (k : Int)).toNat = l.length - k := by omega
  rw [h6]
  simp

/-- C9: in `transferCompressedNFT` and `burnCompressedNFT`, the proof accounts
forwarded with the instruction as remaining accounts are exactly the first
`proof.length − canopyDepth` entries of the fetched proof, each marked
non-signer and non-writable, where the canopy depth defaults to `0` when the
tree account reports none; with canopy depth `0` the complete fetched proof is
forwarded. -/
theorem proofPath_first_entries (proof : List PubKey) (canopyOpt : Option Nat)
    (h : canopyOpt.getD 0 ≤ proof.length) :
    transferProofPath proof (canopyOpt.getD 0) =
        (proof.take (proof.length - canopyOpt.getD 0)).map
          (fun node => ⟨node, false, false⟩) ∧
      burnProofPath proof (canopyOpt.getD 0) =
        (proof.take (proof.length - canopyOpt.getD 0)).map
          (fun node => ⟨node, false, false⟩) ∧
      (∀ m ∈ transferProofPath proof (canopyOpt.getD 0),
        m.isSigner = false ∧ m.isWritable = false) ∧
      (canopyOpt.getD 0 = 0 →
        transferProofPath proof (canopyOpt.getD 0) =
          proof.map (fun node => ⟨node, false, false⟩)) := by
  have hlen : canopyOpt.getD 0 ≤
      (proof.map (fun node => (⟨node, false, false⟩ : AccountMeta))).length := by
    simpa using h
  have hmain : transferProofPath proof (canopyOpt.getD 0) =
      (proof.take (proof.length - canopyOpt.getD 0)).map
        (fun node => ⟨node, false, false⟩) := by
    unfold transferProofPath
    have := jsSlice_zero_sub
      (proof.map (fun node => (⟨node, false, false⟩ : AccountMeta)))
      (canopyOpt.getD 0) hlen
    rw [List.length_map] at this
    rw [this, List.map_take]
  refine ⟨hmain, hmain, ?_, ?_⟩
  · intro m hm
    rw [hmain, List.mem_map] at hm
    obtain ⟨node, _, rfl⟩ := hm
    exact ⟨rfl, rfl⟩
  · intro hzero
    rw [hmain, hzero]
    simp

theorem proofPath_first_entries_witness :
    transferProofPath [10, 20, 30] ((some 1 : Option Nat).getD 0) =
        (([10, 20, 30] : List PubKey).take (3 - 1)).map
          (fun node => ⟨node, false, false⟩) ∧
      burnProofPath [10, 20, 30] ((some 1 : Option Nat).getD 0) =
        (([10, 20, 30] : List PubKey).take (3 - 1)).map
          (fun node => ⟨node, false, false⟩) ∧
      (∀ m ∈ transferProofPath [10, 20, 30] ((some 1 : Option Nat).getD 0),
        m.isSigner = false ∧ m.isWritable = false) ∧
      ((some 1 : Option Nat).getD 0 = 0 →
        transferProofPath [10, 20, 30] ((some 1 : Option Nat).getD 0) =
          ([10, 20, 30] : List PubKey).map (fun node => ⟨node, false, false⟩)) :=
  proofPath_first_entries [10, 20, 30] (some 1) (by decide)

/-- Concrete oracle for the demo witness: every signature resolves to the
witness transaction `txW`, so both mints recover leaf index 3. -/
def demoOracleW : DemoOracle :=
  ⟨fun seeds pid => (3000 + 10 * pid + seeds.length, 255),
    glaW, deserW, 7,
    fun _ => txW,
    fun _ => ⟨⟨40, 41, 42, 5⟩, ⟨50, some 51⟩⟩,
    fun _ => ⟨[60, 61, 62], 70⟩,
    fun _ => ⟨80, some 1⟩,
    "sig1", "sig2", "uri1", "uri2"⟩

theorem mainDemo_operations_in_order_witness :
    eventOps (mainDemo demoOracleW 100 200).1 =
        [OpKind.createTreeOp demoOracleW.treeKeypairPub,
          OpKind.mintOp demoOracleW.treeKeypairPub 100,
          OpKind.mintOp demoOracleW.treeKeypairPub 100,
          OpKind.queryOp "getAsset" 7003, OpKind.queryOp "getAssetProof" 7003,
          OpKind.transferOp (demoOracleW.assetDataOf 7003).compression.tree
            (demoOracleW.assetDataOf 7003).ownership.owner 200,
          OpKind.queryOp "getAsset" 7003, OpKind.queryOp "getAssetProof" 7003,
          OpKind.burnOp (demoOracleW.assetDataOf 7003).compression.tree
            (demoOracleW.assetDataOf 7003).ownership.owner] ∧
      (mainDemo demoOracleW 100 200).2 = .ok () :=
  mainDemo_operations_in_order demoOracleW 100 200 7003 7003 rfl rfl

/-!
Embedding of the collection-demo script's `main` (`src/index.ts` lines 32-135
of the collection variant): only the tree-size configuration and the canopy
depth it passes on are relevant here.
-/

/-- The `ValidDepthSizePair` the collection demo configures (index.ts:39-59):
`maxDepth: 3, maxBufferSize: 8`. -/
def collectionDemoMaxDepthSizePair : DepthSizePair := ⟨3, 8⟩

/-- index.ts:60: `const canopyDepth = maxDepthSizePair.maxDepth - 5`, JS
number arithmetic, so the value may be negative. -/
def collectionDemoCanopyDepth : Int :=
  (collectionDemoMaxDepthSizePair.maxDepth : Int) - 5

/-- The arguments `main` passes to `getConcurrentMerkleTreeAccountSize`
(index.ts:63-67). -/
structure SizeCalcArgs where
  maxDepth : Nat
  maxBufferSize : Nat
  canopyDepth : Int
  deriving Repr, DecidableEq

def collectionDemoSizeCalcArgs : SizeCalcArgs :=
  ⟨collectionDemoMaxDepthSizePair.maxDepth,
    collectionDemoMaxDepthSizePair.maxBufferSize,
    collectionDemoCanopyDepth⟩

/-- The canopy-depth argument `main` passes to `createTree` (index.ts:77-83),
forwarded there to `createAllocTreeIx` (index.ts:166-172). -/
def collectionDemoCreateTreeCanopyArg : Int := collectionDemoCanopyDepth

/-- C10: in the collection-demo script's `main`, the canopy depth is computed
as `maxDepth − 5` with `maxDepth = 3`, so the negative canopy depth `−2` is
passed both to the tree-account size calculation and to the tree-creation
call. -/
theorem collectionDemo_negative_canopy :
    collectionDemoCanopyDepth =
        (collectionDemoMaxDepthSizePair.maxDepth : Int) - 5 ∧
      collectionDemoCanopyDepth = -2 ∧
      collectionDemoSizeCalcArgs.canopyDepth = -2 ∧
      collectionDemoCreateTreeCanopyArg = -2 ∧
      collectionDemoCanopyDepth < 0 := by
  refine ⟨rfl, ?_, ?_, ?_, ?_⟩ <;> decide
